import Mathlib

/-!
Verification of the row-count differencing engine of `tidb_diff` (`src/main.go`).

The embedding translates the pure logic of the comparison tool:
`diffSortedStrings` (main.go:163-186), `removeIgnoredTables` (main.go:605-618),
the per-table retry loop and the count accumulation of
`countTableRowsConcurrent` (main.go:620-743), the comparison and
reconciliation logic of `checkSingleDB` (main.go:411-572), the result merge
and summary of `diff` (main.go:1145-1211), and the connection-pool sizing of
`diff` (main.go:835-855).

Database I/O is modelled by oracles: each side of a database carries
the outcome the table-list query would return, the outcome the statistics
query would return, and the outcome of each count attempt per table.
The concurrent fan-out is refined to the sequential order of the table list;
per table the produced entry depends only on that table's own outcomes, so
this fixes only the order of accumulation, which no claim depends on.
-/

/-- One CSV row of the report: `{数据库, 表名, 源库条数, 目标库条数, 差额, 结果}`
as appended to `rowsForCSV` in `checkSingleDB` (main.go:447, 451, 547, 551, 555, 566). -/
structure CSVRow where
  db : String
  table : String
  srcCount : String
  dstCount : String
  diffStr : String
  status : String
deriving DecidableEq

/-- Result of checking one database (`CheckResult`, main.go:405-409). -/
structure CheckResult where
  dbName : String
  errList : List String
  rowsForCSV : List CSVRow
deriving DecidableEq

/-- Lines 163-186, the merge loop of `diffSortedStrings`, with an explicit
fuel argument bounding the number of loop iterations.  Each Go loop iteration
advances `i` or `j`, so `a.length + b.length` iterations suffice; the
fuel-exhausted branch is unreachable for that fuel (see `diffGo_fuel_irrel`).
The fuel form keeps the definition structurally recursive so that it
evaluates by `decide`/`rfl`. -/
def diffGo : Nat → List String → List String → List String × List String
  | _, [], b => ([], b)
  | _, a :: as, [] => (a :: as, [])
  | 0, _ :: _, _ :: _ => ([], [])
  | fuel + 1, a :: as, b :: bs =>
    if a = b then diffGo fuel as bs
    else if a < b then
      let p := diffGo fuel as (b :: bs)
      (a :: p.1, p.2)
    else
      let p := diffGo fuel (a :: as) bs
      (p.1, b :: p.2)

/-- `diffSortedStrings` (main.go:163-186): single merge pass over two string
lists, returning the elements only in the first and only in the second. -/
def diffSortedStrings (a b : List String) : List String × List String :=
  diffGo (a.length + b.length) a b

/-- `removeIgnoredTables` (main.go:605-618): keep the tables that are not in
the ignore list (the Go version materialises the ignore list as a set map;
only membership is used). -/
def removeIgnoredTables (tables ignoreTables : List String) : List String :=
  tables.filter (fun t => ¬ t ∈ ignoreTables)

/-- Outcome of one attempt of the per-table count task in
`countTableRowsConcurrent` (main.go:672-707): the connection acquisition can
fail (main.go:678), the count query can fail (main.go:694), or the query
succeeds with a row count (`SELECT COUNT(1)`, hence a natural number). -/
inductive AttemptResult where
  | connFail : AttemptResult
  | queryFail : AttemptResult
  | success : Nat → AttemptResult
deriving DecidableEq

/-- Whether an attempt succeeded. -/
def AttemptResult.isSuccess : AttemptResult → Bool
  | .success _ => true
  | _ => false

/-- The retry loop of one count task (main.go:672-707), attempts indexed from
0.  `remaining` is the number of retries still allowed (initially
`maxRetries`, matching the Go condition `retry <= maxRetries`); `k` is the
index of the current attempt.  Returns the final outcome (`some count` on
success, `none` when the last allowed attempt failed) and the number of
attempts performed.  Both connection failures and query failures consume an
attempt and lead to a retry when attempts remain, exactly as in the Go loop
(the backoff sleep at main.go:673-676 has no effect on the result). -/
def runAttemptsGo (outcomes : Nat → AttemptResult) : Nat → Nat → Option Nat × Nat
  | remaining, k =>
    match outcomes k with
    | .success c => (some c, k + 1)
    | _ =>
      match remaining with
      | 0 => (none, k + 1)
      | r + 1 => runAttemptsGo outcomes r (k + 1)

/-- Run one count task: up to `maxRetries + 1` sequential attempts. -/
def runAttempts (outcomes : Nat → AttemptResult) (maxRetries : Nat) : Option Nat × Nat :=
  runAttemptsGo outcomes maxRetries 0

/-- Final outcome of the count task for table `t` (the part of
`runAttempts` that `countTableRowsConcurrent` records). -/
def taskOutcome (outcomes : String → Nat → AttemptResult) (maxRetries : Nat)
    (t : String) : Option Nat :=
  (runAttempts (outcomes t) maxRetries).1

/-- The error recorded for a failed table
(`fmt.Errorf("表 %s 统计失败: %v", ...)`, main.go:712; the trailing driver
error text is opaque and omitted). -/
def countFailMsg (t : String) : String := "表 " ++ t ++ " 统计失败"

/-- Accumulation step of `countTableRowsConcurrent` (main.go:709-714): a
successful task records its count in the result map, a failed task appends
one error. -/
def countStep (outcomes : String → Nat → AttemptResult) (maxRetries : Nat)
    (acc : List (String × Nat) × List String) (t : String) :
    List (String × Nat) × List String :=
  match taskOutcome outcomes maxRetries t with
  | some c => (acc.1 ++ [(t, c)], acc.2)
  | none => (acc.1, acc.2 ++ [countFailMsg t])

/-- `countTableRowsConcurrent` (main.go:620-743), refined to the sequential
order of the table list: every table runs one count task, contributing either
a `(table, count)` entry or one failure record. -/
def countTableRowsConcurrent (tables : List String)
    (outcomes : String → Nat → AttemptResult) (maxRetries : Nat) :
    List (String × Nat) × List String :=
  tables.foldl (countStep outcomes maxRetries) ([], [])

/-- The row of the comparison loop for one source-side entry
(main.go:541-559).  The absolute difference
`int64(math.Abs(float64(dstCount - srcCount)))` is modelled as the exact
`|dst - src|` on ℤ (for row counts below 2^53 the float64 computation is
exact). -/
def compareSrcEntry (db : String) (threshold : Int) (dstRet : List (String × Nat))
    (e : String × Nat) : CSVRow :=
  match dstRet.lookup e.1 with
  | none => ⟨db, e.1, toString e.2, "-1", "N/A", "目的表不存在"⟩
  | some dv =>
    if |(dv : Int) - (e.2 : Int)| ≤ threshold then
      ⟨db, e.1, toString e.2, toString dv, toString |(dv : Int) - (e.2 : Int)|, "一致"⟩
    else
      ⟨db, e.1, toString e.2, toString dv, toString |(dv : Int) - (e.2 : Int)|, "不一致"⟩

/-- The error-list contribution of the comparison loop for one source-side
entry: the table name is appended when the destination count is absent
(main.go:546) or the difference exceeds the threshold (main.go:556). -/
def compareSrcEntryErrs (threshold : Int) (dstRet : List (String × Nat))
    (e : String × Nat) : List String :=
  match dstRet.lookup e.1 with
  | none => [e.1]
  | some dv => if |(dv : Int) - (e.2 : Int)| ≤ threshold then [] else [e.1]

/-- The two comparison loops of `checkSingleDB` (main.go:541-568): compare
every source-side count against the destination map, then report every
destination-only count as missing in source.  Returns the CSV rows and the
error-list entries, in the determinised order of the count maps. -/
def compareRows (db : String) (threshold : Int) (srcRet dstRet : List (String × Nat)) :
    List CSVRow × List String :=
  (srcRet.map (compareSrcEntry db threshold dstRet)
     ++ (dstRet.filter (fun e => (srcRet.lookup e.1).isNone)).map
         (fun e => ⟨db, e.1, "-1", toString e.2, "N/A", "源表不存在"⟩),
   (srcRet.map (compareSrcEntryErrs threshold dstRet)).flatten
     ++ (dstRet.filter (fun e => (srcRet.lookup e.1).isNone)).map (fun e => e.1))

/-- What one side (source or destination) of a database answers: the outcome
of the table-list query (`getTableList`, main.go:574-603), the outcome of
the statistics query (`getTableRowCountsFromStats`, main.go:745-817, which
answers a count for every requested table, defaulting to 0), and the
per-table, per-attempt outcomes of the exact count queries. -/
structure SideInput where
  tablesQ : Except String (List String)
  statsQ : Except String (String → Nat)
  countO : String → Nat → AttemptResult

/-- Row-count retrieval for one side of `checkSingleDB` (main.go:469-539):
either the one-shot statistics query (`useStats`), whose failure yields one
error and an empty count map, or the concurrent exact count
(`countTableRowsConcurrent`). -/
def sideCounts (side : SideInput) (useStats : Bool) (statsFailPrefix : String)
    (tables : List String) (maxRetries : Nat) : List (String × Nat) × List String :=
  if useStats then
    match side.statsQ with
    | .error e => ([], [statsFailPrefix ++ e])
    | .ok f => (tables.map (fun t => (t, f t)), [])
  else
    countTableRowsConcurrent tables side.countO maxRetries

/-- The table-set-mismatch error message (main.go:442; the `%v` rendering of
the two lists is abstracted by `toString`). -/
def asymMsg (db : String) (onlySrc onlyDst : List String) : String :=
  "【" ++ db ++ "】源库和目标库表清单不一致，校验异常退出！src_only="
    ++ toString onlySrc ++ ", dst_only=" ++ toString onlyDst

/-- The nothing-to-compare message (main.go:457). -/
def emptyMsg (db : String) : String :=
  "【" ++ db ++ "】源库和目标库都是空的，不做校验退出"

/-- A reconciliation row for a table only in the source: both counts are the
sentinel `-1` (main.go:447). -/
def missingInDstRow (db t : String) : CSVRow :=
  ⟨db, t, "-1", "-1", "N/A", "目的表不存在"⟩

/-- A reconciliation row for a table only in the destination (main.go:451). -/
def missingInSrcRow (db t : String) : CSVRow :=
  ⟨db, t, "-1", "-1", "N/A", "源表不存在"⟩

/-- `checkSingleDB` (main.go:411-572).  Table selection (main.go:420-435):
an explicit non-empty `specifiedTables` list is used for both sides,
otherwise each side's table-list query answers (a failure aborts the
database with one error).  Both lists are then ignore-filtered
(main.go:437-438) and reconciled (main.go:440-454): any asymmetry yields one
sentinel row per asymmetric table and returns before any counting.  Empty
lists skip the database (main.go:456-461).  Otherwise both sides are counted
(main.go:469-539; the `tableConcurrency` width only schedules the fan-out
and cannot change any per-table outcome, so it does not appear) and the
comparison loops produce the rows (main.go:541-568).  Error-list order is
determinised as: source-side errors, destination-side errors, comparison
errors. -/
def checkSingleDB (db : String) (srcIn dstIn : SideInput) (ignoreTables : List String)
    (threshold : Int) (useStats : Bool) (maxRetries : Nat)
    (specifiedTables : List String) : CheckResult :=
  match
    (if specifiedTables.length > 0 then
      Except.ok (specifiedTables, specifiedTables)
    else
      match srcIn.tablesQ with
      | .error e => .error ("获取源库表列表失败：" ++ e)
      | .ok s =>
        match dstIn.tablesQ with
        | .error e => .error ("获取目标库表列表失败：" ++ e)
        | .ok t => Except.ok (s, t)) with
  | .error msg => ⟨db, [msg], []⟩
  | .ok st =>
    let srcTables := removeIgnoredTables st.1 ignoreTables
    let dstTables := removeIgnoredTables st.2 ignoreTables
    let od := diffSortedStrings srcTables dstTables
    if od.1.length > 0 ∨ od.2.length > 0 then
      ⟨db, asymMsg db od.1 od.2 :: (od.1 ++ od.2),
        od.1.map (missingInDstRow db) ++ od.2.map (missingInSrcRow db)⟩
    else if srcTables.length = 0 then
      ⟨db, [emptyMsg db], []⟩
    else
      let src := sideCounts srcIn useStats "从统计信息获取源库行数失败：" srcTables maxRetries
      let dst := sideCounts dstIn useStats "从统计信息获取目标库行数失败：" dstTables maxRetries
      let cmp := compareRows db threshold src.1 dst.1
      ⟨db, src.2 ++ dst.2 ++ cmp.2, cmp.1⟩

/-- One merge step of the result aggregation in `diff` (main.go:1109-1110
sequential, main.go:1148-1152 concurrent): append the database's errors to
its entry of `errTls` and the database's rows to `allRows`. -/
def mergeResult (acc : (String → List String) × List CSVRow) (r : CheckResult) :
    (String → List String) × List CSVRow :=
  (fun dbn => if dbn = r.dbName then acc.1 dbn ++ r.errList else acc.1 dbn,
   acc.2 ++ r.rowsForCSV)

/-- Fold of the per-database results into the aggregate state
(`errTls` starts with an empty list per database, main.go:1078-1080). -/
def mergeResults (rs : List CheckResult) : (String → List String) × List CSVRow :=
  rs.foldl mergeResult (fun _ => [], [])

/-- The per-database summary line (main.go:1198-1206): a database with a
non-empty error list is reported with its error entries, otherwise it is
clean (the `%v` rendering of the list is abstracted by `toString`). -/
def summaryLine (errTls : String → List String) (db : String) : String :=
  if (errTls db).length > 0 then
    "DB:【" ++ db ++ "】相差较大或目的端不存在的表清单如下：" ++ toString (errTls db)
  else
    "DB:【" ++ db ++ "】所有表记录数一致，无异常"

/-- The summary of `diff` (main.go:1198-1207): one line per database, in
discovery order. -/
def summaryLines (dbs : List String) (errTls : String → List String) : List String :=
  dbs.map (summaryLine errTls)

/-- Default open-connection sizing of `diff` when `max_open_conns` is not
configured (main.go:835-846): `concurrency * 2 * (tableConcurrency + 10)`,
clamped below by 1 and above by 500. -/
def computeOpenConns (concurrency tableConcurrency : Nat) : Nat :=
  let v := concurrency * 2 * (tableConcurrency + 10)
  let w := if v < 1 then 1 else v
  if w > 500 then 500 else w

/-- Default idle-connection sizing of `diff` when `max_idle_conns` is not
configured (main.go:848-855): `int(float64(maxOpenConns) * 0.8)`, clamped
below by 1.  For `n ≤ 500` the float64 expression equals `n * 4 / 5` exactly:
when `0.8 * n` is an integer the rounding error of the double `0.8`
(≈ 5.6e-17 relative) is below half an ulp at that magnitude, and otherwise
truncation towards zero coincides with the floor. -/
def computeIdleConns (openConns : Nat) : Nat :=
  let v := openConns * 4 / 5
  if v < 1 then 1 else v

/-- Count map keyed by table name: the shape of both `srcRet` and `dstRet`
in the exact-count mode (each table appears with the count its task
produced, if any).  Proof-layer abbreviation. -/
def keyedMap (F : String → Option Nat) (l : List String) : List (String × Nat) :=
  l.filterMap (fun u => (F u).map (fun c => (u, c)))

/-- Fuel irrelevance for the merge loop: one extra unit of sufficient fuel
changes nothing. -/
theorem diffGo_succ (fuel : Nat) :
    ∀ (a b : List String), a.length + b.length ≤ fuel →
      diffGo (fuel + 1) a b = diffGo fuel a b := by
  induction fuel with
  | zero =>
    intro a b h
    match a, b with
    | [], b => rfl
    | a :: as, [] => rfl
    | a :: as, b :: bs => simp at h
  | succ fuel ih =>
    intro a b h
    match a, b with
    | [], b => rfl
    | a :: as, [] => rfl
    | a :: as, b :: bs =>
      simp only [List.length_cons] at h
      show (if a = b then diffGo (fuel + 1) as bs
        else if a < b then
          let p := diffGo (fuel + 1) as (b :: bs)
          (a :: p.1, p.2)
        else
          let p := diffGo (fuel + 1) (a :: as) bs
          (p.1, b :: p.2)) = _
      rw [ih as bs (by omega), ih as (b :: bs) (by simp only [List.length_cons]; omega),
        ih (a :: as) bs (by simp only [List.length_cons]; omega)]
      rfl

/-- Any sufficient fuel computes `diffSortedStrings`. -/
theorem diffGo_fuel_irrel (fuel : Nat) (a b : List String)
    (h : a.length + b.length ≤ fuel) : diffGo fuel a b = diffSortedStrings a b := by
  induction fuel with
  | zero =>
    have h0 : a.length + b.length = 0 := by omega
    unfold diffSortedStrings
    rw [h0]
  | succ fuel ih =>
    rcases Nat.lt_or_ge (a.length + b.length) (fuel + 1) with h' | h'
    · rw [diffGo_succ fuel a b (by omega), ih (by omega)]
    · have heq : a.length + b.length = fuel + 1 := by omega
      unfold diffSortedStrings
      rw [heq]

theorem diffSortedStrings_nil_left (b : List String) :
    diffSortedStrings [] b = ([], b) := by
  simp [diffSortedStrings, diffGo]

theorem diffSortedStrings_nil_right (a : List String) :
    diffSortedStrings a [] = (a, []) := by
  cases a <;> simp [diffSortedStrings, diffGo]

theorem diffSortedStrings_cons_cons (a b : String) (as bs : List String) :
    diffSortedStrings (a :: as) (b :: bs) =
      if a = b then diffSortedStrings as bs
      else if a < b then
        ((a :: (diffSortedStrings as (b :: bs)).1), (diffSortedStrings as (b :: bs)).2)
      else
        ((diffSortedStrings (a :: as) bs).1, b :: (diffSortedStrings (a :: as) bs).2) := by
  show diffGo ((as.length + 1) + (bs.length + 1)) (a :: as) (b :: bs) = _
  have harith : (as.length + 1) + (bs.length + 1) = (as.length + bs.length + 1) + 1 := by
    omega
  rw [harith]
  show (if a = b then diffGo (as.length + bs.length + 1) as bs
    else if a < b then
      let p := diffGo (as.length + bs.length + 1) as (b :: bs)
      (a :: p.1, p.2)
    else
      let p := diffGo (as.length + bs.length + 1) (a :: as) bs
      (p.1, b :: p.2)) = _
  rw [diffGo_fuel_irrel _ as bs (by omega),
    diffGo_fuel_irrel _ as (b :: bs) (by simp only [List.length_cons]; omega),
    diffGo_fuel_irrel _ (a :: as) bs (by simp only [List.length_cons]; omega)]

/-- Identical lists have an empty symmetric difference: the merge consumes
both heads at every step. -/
theorem diffSortedStrings_self (l : List String) :
    diffSortedStrings l l = ([], []) := by
  induction l with
  | nil => rfl
  | cons a as ih => rw [diffSortedStrings_cons_cons, if_pos rfl, ih]

/-- Dropping a head that no element of `l` equals does not change the
not-membership filter. -/
theorem filter_not_mem_cons (l : List String) (c : String) (m : List String)
    (h : ∀ x ∈ l, x ≠ c) :
    l.filter (fun x => ¬ x ∈ c :: m) = l.filter (fun x => ¬ x ∈ m) := by
  apply List.filter_congr
  intro x hx
  simp [List.mem_cons, h x hx]

theorem not_mem_of_forall_lt (c : String) (l : List String)
    (h : ∀ y ∈ l, c < y) : ¬ c ∈ l := by
  intro hc
  exact absurd (h c hc) (lt_irrefl c)

/-- Symmetric-difference characterisation of the merge on strictly sorted
lists, by induction on the total length. -/
theorem diffSortedStrings_symmDiff_aux :
    ∀ (n : Nat) (a b : List String), a.length + b.length ≤ n →
      a.Pairwise (· < ·) → b.Pairwise (· < ·) →
      diffSortedStrings a b =
        (a.filter (fun x => ¬ x ∈ b), b.filter (fun x => ¬ x ∈ a)) := by
  intro n
  induction n with
  | zero =>
    intro a b h _ _
    match a, b with
    | [], [] => simp [diffSortedStrings_nil_left]
    | [], _ :: _ => simp at h
    | _ :: _, _ => simp at h
  | succ n ih =>
    intro a b h ha hb
    match a, b with
    | [], b => simp [diffSortedStrings_nil_left]
    | a :: as, [] => simp [diffSortedStrings_nil_right]
    | a :: as, b :: bs =>
      simp only [List.length_cons] at h
      rw [diffSortedStrings_cons_cons]
      rcases List.pairwise_cons.mp ha with ⟨ha1, ha2⟩
      rcases List.pairwise_cons.mp hb with ⟨hb1, hb2⟩
      by_cases hab : a = b
      · subst hab
        rw [if_pos rfl, ih as bs (by omega) ha2 hb2]
        have h1 : (a :: as).filter (fun x => ¬ x ∈ a :: bs)
            = as.filter (fun x => ¬ x ∈ bs) := by
          rw [List.filter_cons_of_neg (by simp),
            filter_not_mem_cons as a bs (fun x hx => ne_of_gt (ha1 x hx))]
        have h2 : (a :: bs).filter (fun x => ¬ x ∈ a :: as)
            = bs.filter (fun x => ¬ x ∈ as) := by
          rw [List.filter_cons_of_neg (by simp),
            filter_not_mem_cons bs a as (fun x hx => ne_of_gt (hb1 x hx))]
        rw [h1, h2]
      · rw [if_neg hab]
        by_cases hlt : a < b
        · rw [if_pos hlt, ih as (b :: bs) (by simp only [List.length_cons]; omega) ha2 hb]
          have hforall : ∀ y ∈ b :: bs, a < y := by
            intro y hy
            rcases List.mem_cons.mp hy with hy | hy
            · exact hy ▸ hlt
            · exact lt_trans hlt (hb1 y hy)
          have h1 : (a :: as).filter (fun x => ¬ x ∈ b :: bs)
              = a :: as.filter (fun x => ¬ x ∈ b :: bs) := by
            rw [List.filter_cons_of_pos
              (by simp [not_mem_of_forall_lt a (b :: bs) hforall])]
          have h2 : (b :: bs).filter (fun x => ¬ x ∈ a :: as)
              = (b :: bs).filter (fun x => ¬ x ∈ as) :=
            filter_not_mem_cons (b :: bs) a as (fun x hx => ne_of_gt (hforall x hx))
          rw [h1, h2]
        · have hgt : b < a := by
            rcases lt_trichotomy a b with h' | h' | h'
            · exact absurd h' hlt
            · exact absurd h' hab
            · exact h'
          rw [if_neg hlt, ih (a :: as) bs (by simp only [List.length_cons]; omega) ha hb2]
          have hforall : ∀ y ∈ a :: as, b < y := by
            intro y hy
            rcases List.mem_cons.mp hy with hy | hy
            · exact hy ▸ hgt
            · exact lt_trans hgt (ha1 y hy)
          have h1 : (a :: as).filter (fun x => ¬ x ∈ b :: bs)
              = (a :: as).filter (fun x => ¬ x ∈ bs) :=
            filter_not_mem_cons (a :: as) b bs (fun x hx => ne_of_gt (hforall x hx))
          have h2 : (b :: bs).filter (fun x => ¬ x ∈ a :: as)
              = b :: bs.filter (fun x => ¬ x ∈ a :: as) := by
            rw [List.filter_cons_of_pos
              (by simp [not_mem_of_forall_lt b (a :: as) hforall])]
          rw [h1, h2]

/-- When every attempt in the allowed window fails, the retry loop performs
every allowed attempt and ends with no count. -/
theorem runAttemptsGo_all_fail (outcomes : Nat → AttemptResult) :
    ∀ (r k : Nat), (∀ j, k ≤ j → j ≤ k + r → (outcomes j).isSuccess = false) →
      runAttemptsGo outcomes r k = (none, k + r + 1) := by
  intro r
  induction r with
  | zero =>
    intro k h
    rw [runAttemptsGo]
    have := h k le_rfl (by omega)
    cases houtk : outcomes k <;> simp_all [AttemptResult.isSuccess]
  | succ r ih =>
    intro k h
    rw [runAttemptsGo]
    have hk := h k le_rfl (by omega)
    have hrec : runAttemptsGo outcomes r (k + 1) = (none, (k + 1) + r + 1) :=
      ih (k + 1) (fun j h1 h2 => h j (by omega) (by omega))
    cases houtk : outcomes k <;> simp_all [AttemptResult.isSuccess] <;> omega

/-- A task that fails every attempt performs exactly `maxRetries + 1`
attempts and yields no count. -/
theorem runAttempts_all_fail (outcomes : Nat → AttemptResult) (maxRetries : Nat)
    (h : ∀ j, j ≤ maxRetries → (outcomes j).isSuccess = false) :
    runAttempts outcomes maxRetries = (none, maxRetries + 1) := by
  unfold runAttempts
  rw [runAttemptsGo_all_fail outcomes maxRetries 0 (fun j _ h2 => h j (by omega))]
  simp

/-- Closed form of the count accumulation: successful tables contribute their
count in table order, failed tables contribute one failure record each. -/
theorem countTableRows_eq_aux (outcomes : String → Nat → AttemptResult)
    (maxRetries : Nat) :
    ∀ (tables : List String) (acc : List (String × Nat) × List String),
      tables.foldl (countStep outcomes maxRetries) acc =
        (acc.1 ++ keyedMap (taskOutcome outcomes maxRetries) tables,
         acc.2 ++ (tables.filter
            (fun t => (taskOutcome outcomes maxRetries t).isNone)).map countFailMsg) := by
  intro tables
  induction tables with
  | nil => intro acc; simp [keyedMap]
  | cons t ts ih =>
    intro acc
    rw [List.foldl_cons, ih]
    unfold countStep keyedMap
    cases hout : taskOutcome outcomes maxRetries t <;>
      simp [keyedMap, hout, List.filter_cons, List.filterMap_cons]

theorem countTableRows_eq (tables : List String)
    (outcomes : String → Nat → AttemptResult) (maxRetries : Nat) :
    countTableRowsConcurrent tables outcomes maxRetries =
      (keyedMap (taskOutcome outcomes maxRetries) tables,
       (tables.filter
          (fun t => (taskOutcome outcomes maxRetries t).isNone)).map countFailMsg) := by
  unfold countTableRowsConcurrent
  rw [countTableRows_eq_aux]
  simp

theorem keyedMap_lookup (F : String → Option Nat) (l : List String) (t : String) :
    (keyedMap F l).lookup t = if t ∈ l then F t else none := by
  induction l with
  | nil => simp [keyedMap]
  | cons u us ih =>
    rw [keyedMap, List.filterMap_cons]
    cases hFu : F u with
    | none =>
      by_cases htu : t = u
      · subst htu
        rw [keyedMap] at ih
        simp [ih, hFu]
      · rw [keyedMap] at ih
        simp [ih, htu]
    | some c =>
      by_cases htu : t = u
      · subst htu
        simp [List.lookup, hFu]
      · rw [keyedMap] at ih
        simp [List.lookup, htu, ih, beq_false_of_ne htu]

theorem keyedMap_filter_key_nil (F : String → Option Nat) (l : List String) (t : String)
    (ht : ¬ t ∈ l) :
    (keyedMap F l).filter (fun e => e.1 == t) = [] := by
  induction l with
  | nil => simp [keyedMap]
  | cons u us ih =>
    rw [keyedMap, List.filterMap_cons]
    have hne : u ≠ t := fun h => ht (h ▸ List.mem_cons_self u us)
    have hus : ¬ t ∈ us := fun h => ht (List.mem_cons_of_mem u h)
    rw [keyedMap] at ih
    cases hFu : F u with
    | none => simp [ih hus]
    | some c => simp [List.filter_cons, hne, ih hus]

theorem keyedMap_filter_key (F : String → Option Nat) (l : List String) (t : String)
    (hnd : l.Nodup) (ht : t ∈ l) :
    (keyedMap F l).filter (fun e => e.1 == t) = ((F t).map (fun c => (t, c))).toList := by
  induction l with
  | nil => simp at ht
  | cons u us ih =>
    rw [keyedMap, List.filterMap_cons]
    rcases List.nodup_cons.mp hnd with ⟨hu, hus⟩
    by_cases htu : t = u
    · subst htu
      cases hFu : F t with
      | none =>
        have hnil := keyedMap_filter_key_nil F us t hu
        rw [keyedMap] at hnil
        simpa using hnil
      | some c =>
        have hnil := keyedMap_filter_key_nil F us t hu
        rw [keyedMap] at hnil
        simp [List.filter_cons, hFu, hnil]
    · have htm : t ∈ us := (List.mem_cons.mp ht).resolve_left htu
      rw [keyedMap] at ih
      cases hFu : F u with
      | none => simpa using ih hus htm
      | some c => simp [List.filter_cons, Ne.symm htu, ih hus htm]

theorem compareSrcEntry_table (db : String) (th : Int) (dstRet : List (String × Nat))
    (e : String × Nat) : (compareSrcEntry db th dstRet e).table = e.1 := by
  unfold compareSrcEntry
  cases dstRet.lookup e.1 with
  | none => rfl
  | some dv =>
    dsimp only
    split <;> rfl

/-- The report rows of the comparison loops that concern table `t`, when
both count maps are keyed by the same duplicate-free table list: one row if
at least one side produced a count, none otherwise. -/
theorem rows_for_table (db : String) (th : Int) (l : List String)
    (S D : String → Option Nat) (t : String) (hnd : l.Nodup) (ht : t ∈ l) :
    (compareRows db th (keyedMap S l) (keyedMap D l)).1.filter (fun r => r.table == t) =
      (match S t with
      | some c => [compareSrcEntry db th (keyedMap D l) (t, c)]
      | none =>
        match D t with
        | some d => [⟨db, t, "-1", toString d, "N/A", "源表不存在"⟩]
        | none => []) := by
  unfold compareRows
  rw [List.filter_append]
  have hcongr1 : List.filter
      ((fun (r : CSVRow) => r.table == t) ∘ (compareSrcEntry db th (keyedMap D l)))
      (keyedMap S l) = List.filter (fun e => e.1 == t) (keyedMap S l) :=
    List.filter_congr (fun e _ => by
      simp [Function.comp, compareSrcEntry_table db th (keyedMap D l) e])
  have h1 : ((keyedMap S l).map (compareSrcEntry db th (keyedMap D l))).filter
      (fun r => r.table == t)
      = (((S t).map (fun c => (t, c))).toList).map (compareSrcEntry db th (keyedMap D l)) := by
    rw [List.filter_map, hcongr1, keyedMap_filter_key S l t hnd ht]
  have hcongr2 : List.filter
      ((fun (r : CSVRow) => r.table == t)
        ∘ (fun e => (⟨db, e.1, "-1", toString e.2, "N/A", "源表不存在"⟩ : CSVRow)))
      ((keyedMap D l).filter (fun e => ((keyedMap S l).lookup e.1).isNone))
      = List.filter (fun e => e.1 == t)
          ((keyedMap D l).filter (fun e => ((keyedMap S l).lookup e.1).isNone)) :=
    List.filter_congr (fun e _ => by simp [Function.comp])
  have hswap : List.filter (fun (e : String × Nat) => e.1 == t)
      ((keyedMap D l).filter (fun e => ((keyedMap S l).lookup e.1).isNone))
      = List.filter (fun e => ((keyedMap S l).lookup e.1).isNone)
          ((keyedMap D l).filter (fun e => e.1 == t)) := by
    rw [List.filter_filter, List.filter_filter]
    exact List.filter_congr (fun e _ => Bool.and_comm _ _)
  have h2 : (((keyedMap D l).filter (fun e => ((keyedMap S l).lookup e.1).isNone)).map
      (fun e => (⟨db, e.1, "-1", toString e.2, "N/A", "源表不存在"⟩ : CSVRow))).filter
      (fun r => r.table == t)
      = (((keyedMap D l).filter (fun e => e.1 == t)).filter
          (fun e => ((keyedMap S l).lookup e.1).isNone)).map
          (fun e => (⟨db, e.1, "-1", toString e.2, "N/A", "源表不存在"⟩ : CSVRow)) := by
    rw [List.filter_map, hcongr2, hswap]
  rw [h1, h2, keyedMap_filter_key D l t hnd ht]
  cases hS : S t with
  | some c => simp [keyedMap_lookup, ht, hS]
  | none =>
    cases hD : D t with
    | none => simp
    | some d => simp [keyedMap_lookup, ht, hS]

theorem removeIgnored_nil (l : List String) : removeIgnoredTables l [] = l := by
  simp [removeIgnoredTables]

/-- With an explicit table list, `checkSingleDB` uses it for both sides, so
after ignore-filtering the reconciliation of the (identical) lists is empty
and the check goes straight to counting. -/
theorem checkSingleDB_specified (db : String) (srcIn dstIn : SideInput)
    (ig : List String) (th : Int) (mr : Nat) (tbls : List String)
    (hpos : tbls ≠ []) (hne : removeIgnoredTables tbls ig ≠ []) :
    checkSingleDB db srcIn dstIn ig th false mr tbls =
      ⟨db,
        (countTableRowsConcurrent (removeIgnoredTables tbls ig) srcIn.countO mr).2
          ++ (countTableRowsConcurrent (removeIgnoredTables tbls ig) dstIn.countO mr).2
          ++ (compareRows db th
              (countTableRowsConcurrent (removeIgnoredTables tbls ig) srcIn.countO mr).1
              (countTableRowsConcurrent (removeIgnoredTables tbls ig) dstIn.countO mr).1).2,
        (compareRows db th
          (countTableRowsConcurrent (removeIgnoredTables tbls ig) srcIn.countO mr).1
          (countTableRowsConcurrent (removeIgnoredTables tbls ig) dstIn.countO mr).1).1⟩ := by
  unfold checkSingleDB
  rw [if_pos (List.length_pos.mpr hpos)]
  simp [diffSortedStrings_self, sideCounts, hne]

/-- Reconciliation short-circuit of `checkSingleDB` (main.go:440-454): any
asymmetry after ignore-filtering yields only sentinel missing-table rows,
and the result does not depend on the count or statistics oracles. -/
theorem checkSingleDB_asym (db : String) (ls ld ig : List String)
    (sq1 sq2 : Except String (String → Nat)) (co1 co2 : String → Nat → AttemptResult)
    (th : Int) (us : Bool) (mr : Nat)
    (h : (diffSortedStrings (removeIgnoredTables ls ig) (removeIgnoredTables ld ig)).1 ≠ []
       ∨ (diffSortedStrings (removeIgnoredTables ls ig) (removeIgnoredTables ld ig)).2 ≠ []) :
    checkSingleDB db ⟨.ok ls, sq1, co1⟩ ⟨.ok ld, sq2, co2⟩ ig th us mr [] =
      ⟨db,
        asymMsg db
            (diffSortedStrings (removeIgnoredTables ls ig) (removeIgnoredTables ld ig)).1
            (diffSortedStrings (removeIgnoredTables ls ig) (removeIgnoredTables ld ig)).2
          :: ((diffSortedStrings (removeIgnoredTables ls ig) (removeIgnoredTables ld ig)).1
            ++ (diffSortedStrings (removeIgnoredTables ls ig)
                (removeIgnoredTables ld ig)).2),
        (diffSortedStrings (removeIgnoredTables ls ig) (removeIgnoredTables ld ig)).1.map
            (missingInDstRow db)
          ++ (diffSortedStrings (removeIgnoredTables ls ig)
              (removeIgnoredTables ld ig)).2.map (missingInSrcRow db)⟩ := by
  have hcond :
      (diffSortedStrings (removeIgnoredTables ls ig)
          (removeIgnoredTables ld ig)).1.length > 0
      ∨ (diffSortedStrings (removeIgnoredTables ls ig)
          (removeIgnoredTables ld ig)).2.length > 0 := by
    rcases h with h | h
    · exact Or.inl (List.length_pos.mpr h)
    · exact Or.inr (List.length_pos.mpr h)
  unfold checkSingleDB
  rw [if_neg (by simp)]
  dsimp only
  rw [if_pos hcond]

/-- Skip branch of `checkSingleDB` (main.go:456-461): when both
ignore-filtered table lists are empty the database is skipped with one
informational message, no rows, and no dependence on the count oracles. -/
theorem checkSingleDB_both_empty (db : String) (ls ld ig : List String)
    (sq1 sq2 : Except String (String → Nat)) (co1 co2 : String → Nat → AttemptResult)
    (th : Int) (us : Bool) (mr : Nat)
    (h1 : removeIgnoredTables ls ig = []) (h2 : removeIgnoredTables ld ig = []) :
    checkSingleDB db ⟨.ok ls, sq1, co1⟩ ⟨.ok ld, sq2, co2⟩ ig th us mr [] =
      ⟨db, [emptyMsg db], []⟩ := by
  unfold checkSingleDB
  rw [if_neg (by simp)]
  dsimp only
  rw [h1, h2]
  simp [diffSortedStrings_nil_left]

/-- The accumulated CSV rows are the concatenation of the per-result rows in
feed order. -/
theorem mergeResults_snd_aux :
    ∀ (rs : List CheckResult) (acc : (String → List String) × List CSVRow),
      (rs.foldl mergeResult acc).2
        = acc.2 ++ (rs.map (fun r => r.rowsForCSV)).flatten := by
  intro rs
  induction rs with
  | nil => intro acc; simp
  | cons r rs ih =>
    intro acc
    rw [List.foldl_cons, ih]
    simp [mergeResult]

/-- The accumulated error map at a database is the concatenation of the error
lists of the results for that database, in feed order. -/
theorem mergeResults_fst_aux :
    ∀ (rs : List CheckResult) (acc : (String → List String) × List CSVRow) (dbn : String),
      (rs.foldl mergeResult acc).1 dbn =
        acc.1 dbn
          ++ ((rs.filter (fun r => r.dbName == dbn)).map (fun r => r.errList)).flatten := by
  intro rs
  induction rs with
  | nil => intro acc dbn; simp
  | cons r rs ih =>
    intro acc dbn
    rw [List.foldl_cons, ih]
    by_cases h : r.dbName = dbn
    · simp [mergeResult, List.filter_cons, h]
    · simp [mergeResult, List.filter_cons, h, Ne.symm h]

theorem length_le_one_of_all_eq (xs : List String) (c : String)
    (hnd : xs.Nodup) (h : ∀ x ∈ xs, x = c) : xs.length ≤ 1 := by
  match xs with
  | [] => simp
  | [x] => simp
  | x :: y :: rest =>
    exfalso
    have hx : x = c := h x (by simp)
    have hy : y = c := h y (by simp)
    rcases List.nodup_cons.mp hnd with ⟨hmem, _⟩
    exact hmem (by simp [hx, hy])

theorem perm_eq_of_length_le_one (xs ys : List CheckResult) (h : xs.Perm ys)
    (hlen : xs.length ≤ 1) : xs = ys := by
  match xs, hxs : ys with
  | [], ys => rw [List.Perm.eq_nil (List.Perm.symm h)]
  | [x], ys => exact List.singleton_perm.mp h
  | x :: y :: rest, ys => simp at hlen

/-- With distinct database names, permuting the fed results leaves every
per-database filtered sublist unchanged. -/
theorem filter_dbName_eq_of_perm (l1 l2 : List CheckResult) (h : l1.Perm l2)
    (hnd : (l1.map (fun r => r.dbName)).Nodup) (dbn : String) :
    l1.filter (fun r => r.dbName == dbn) = l2.filter (fun r => r.dbName == dbn) := by
  have hmap : (l1.map (fun r => r.dbName)).filter (fun s => s == dbn)
      = (l1.filter (fun r => r.dbName == dbn)).map (fun r => r.dbName) :=
    List.filter_map (fun r => r.dbName) l1
  have hall : ∀ x ∈ (l1.map (fun r => r.dbName)).filter (fun s => s == dbn), x = dbn := by
    intro x hx
    have := (List.mem_filter.mp hx).2
    simpa using this
  have hlen1 : ((l1.map (fun r => r.dbName)).filter (fun s => s == dbn)).length ≤ 1 :=
    length_le_one_of_all_eq _ dbn (List.Nodup.filter _ hnd) hall
  have hlen : (l1.filter (fun r => r.dbName == dbn)).length ≤ 1 := by
    rw [hmap, List.length_map] at hlen1
    exact hlen1
  exact perm_eq_of_length_le_one _ _ (List.Perm.filter _ h) hlen

theorem countFailMsg_injective : Function.Injective countFailMsg := by
  intro t1 t2 h
  unfold countFailMsg at h
  have hd := congrArg String.data h
  rw [String.data_append, String.data_append, String.data_append,
    String.data_append] at hd
  exact String.ext (List.append_cancel_left (List.append_cancel_right hd))

/-- C1: for every table present in both count maps, the reported row has the
match status `一致` if and only if `|dstCount - srcCount| ≤ threshold`; at
the boundary, a difference exactly equal to the threshold is reported as a
match and a difference of `threshold + 1` as the mismatch `不一致`
(comparison loop, main.go:541-559). -/
theorem row_status_match_iff_threshold (db t : String) (threshold : Int)
    (srcRet dstRet : List (String × Nat)) (s dv : Nat)
    (hs : (t, s) ∈ srcRet) (hd : dstRet.lookup t = some dv) :
    ∃ row ∈ (compareRows db threshold srcRet dstRet).1,
      row.table = t
      ∧ (row.status = "一致" ↔ |(dv : Int) - (s : Int)| ≤ threshold)
      ∧ (|(dv : Int) - (s : Int)| = threshold → row.status = "一致")
      ∧ (|(dv : Int) - (s : Int)| = threshold + 1 → row.status = "不一致") := by
  have hmem : compareSrcEntry db threshold dstRet (t, s)
      ∈ (compareRows db threshold srcRet dstRet).1 :=
    List.mem_append_left _ (List.mem_map_of_mem _ hs)
  by_cases hle : |(dv : Int) - (s : Int)| ≤ threshold
  · exact ⟨compareSrcEntry db threshold dstRet (t, s), hmem,
      by simp [compareSrcEntry, hd, hle],
      by simp [compareSrcEntry, hd, hle],
      fun _ => by simp [compareSrcEntry, hd, hle],
      fun habs => absurd hle (by omega)⟩
  · exact ⟨compareSrcEntry db threshold dstRet (t, s), hmem,
      by simp [compareSrcEntry, hd, hle],
      by simp [compareSrcEntry, hd, hle],
      fun habs => absurd (le_of_eq habs) hle,
      fun _ => by simp [compareSrcEntry, hd, hle]⟩

theorem row_status_match_iff_threshold_witness :
    ∃ row ∈ (compareRows "d" 2 [("t", 5)] [("t", 7)]).1,
      row.table = "t"
      ∧ (row.status = "一致" ↔ |(7 : Int) - (5 : Int)| ≤ 2)
      ∧ (|(7 : Int) - (5 : Int)| = 2 → row.status = "一致")
      ∧ (|(7 : Int) - (5 : Int)| = 2 + 1 → row.status = "不一致") :=
  row_status_match_iff_threshold "d" "t" 2 [("t", 5)] [("t", 7)] 5 7
    (by decide) (by decide)

/-- C5: a count task whose every attempt fails performs exactly
`maxRetries + 1` attempts (both failure kinds, including connection
acquisition, are covered by `hfail`), contributes exactly one failure record
for its table and no count entry, while every other table's entry is exactly
what its own task produced (main.go:667-732).  Within one task the attempts
of the embedded loop are sequential by construction. -/
theorem retries_exhausted (tables : List String)
    (outcomes : String → Nat → AttemptResult) (maxRetries : Nat) (t : String)
    (hnd : tables.Nodup) (ht : t ∈ tables)
    (hfail : ∀ j, j ≤ maxRetries → (outcomes t j).isSuccess = false) :
    (runAttempts (outcomes t) maxRetries).2 = maxRetries + 1
    ∧ (countTableRowsConcurrent tables outcomes maxRetries).2.count (countFailMsg t) = 1
    ∧ (countTableRowsConcurrent tables outcomes maxRetries).1.lookup t = none
    ∧ ∀ u, u ≠ t →
        (countTableRowsConcurrent tables outcomes maxRetries).1.lookup u
          = (if u ∈ tables then taskOutcome outcomes maxRetries u else none) := by
  have hnone : taskOutcome outcomes maxRetries t = none := by
    unfold taskOutcome
    rw [runAttempts_all_fail (outcomes t) maxRetries hfail]
  refine ⟨?_, ?_, ?_, ?_⟩
  · rw [runAttempts_all_fail (outcomes t) maxRetries hfail]
  · rw [countTableRows_eq]
    dsimp only
    rw [List.count_map_of_injective _ countFailMsg countFailMsg_injective t,
      List.count_filter (by simp [hnone]),
      List.count_eq_one_of_mem hnd ht]
  · rw [countTableRows_eq]
    dsimp only
    rw [keyedMap_lookup]
    simp [hnone]
  · intro u _
    rw [countTableRows_eq]
    dsimp only
    rw [keyedMap_lookup]

theorem retries_exhausted_witness :
    (runAttempts ((fun _ _ => AttemptResult.connFail) "t") 3).2 = 3 + 1
    ∧ (countTableRowsConcurrent ["s", "t"] (fun _ _ => AttemptResult.connFail) 3).2.count
        (countFailMsg "t") = 1
    ∧ (countTableRowsConcurrent ["s", "t"]
        (fun _ _ => AttemptResult.connFail) 3).1.lookup "t" = none
    ∧ ∀ u, u ≠ "t" →
        (countTableRowsConcurrent ["s", "t"]
            (fun _ _ => AttemptResult.connFail) 3).1.lookup u
          = (if u ∈ ["s", "t"] then taskOutcome (fun _ _ => AttemptResult.connFail) 3 u
              else none) :=
  retries_exhausted ["s", "t"] (fun _ _ => AttemptResult.connFail) 3 "t"
    (by decide) (by decide) (fun j _ => rfl)

/-- C2: when the ignore-filtered table lists differ, `checkSingleDB` reports
exactly one sentinel missing-table row per asymmetric table (in
reconciliation order), no row carries status `一致`/`不一致`, and the result
does not depend on the count or statistics oracles — no row-count query
outcome can influence it (main.go:440-454). -/
theorem asym_db_missing_rows_only (db : String) (ls ld ig : List String)
    (sq1 sq2 : Except String (String → Nat)) (co1 co2 : String → Nat → AttemptResult)
    (th : Int) (us : Bool) (mr : Nat)
    (h : (diffSortedStrings (removeIgnoredTables ls ig) (removeIgnoredTables ld ig)).1 ≠ []
       ∨ (diffSortedStrings (removeIgnoredTables ls ig)
          (removeIgnoredTables ld ig)).2 ≠ []) :
    checkSingleDB db ⟨.ok ls, sq1, co1⟩ ⟨.ok ld, sq2, co2⟩ ig th us mr [] =
      ⟨db,
        asymMsg db
            (diffSortedStrings (removeIgnoredTables ls ig) (removeIgnoredTables ld ig)).1
            (diffSortedStrings (removeIgnoredTables ls ig) (removeIgnoredTables ld ig)).2
          :: ((diffSortedStrings (removeIgnoredTables ls ig) (removeIgnoredTables ld ig)).1
            ++ (diffSortedStrings (removeIgnoredTables ls ig)
                (removeIgnoredTables ld ig)).2),
        (diffSortedStrings (removeIgnoredTables ls ig) (removeIgnoredTables ld ig)).1.map
            (missingInDstRow db)
          ++ (diffSortedStrings (removeIgnoredTables ls ig)
              (removeIgnoredTables ld ig)).2.map (missingInSrcRow db)⟩
    ∧ ∀ row ∈ (checkSingleDB db ⟨.ok ls, sq1, co1⟩ ⟨.ok ld, sq2, co2⟩
        ig th us mr []).rowsForCSV,
        row.status ≠ "一致" ∧ row.status ≠ "不一致" := by
  have heq := checkSingleDB_asym db ls ld ig sq1 sq2 co1 co2 th us mr h
  refine ⟨heq, ?_⟩
  intro row hrow
  rw [heq] at hrow
  simp only [List.mem_append, List.mem_map] at hrow
  rcases hrow with ⟨a, _, rfl⟩ | ⟨a, _, rfl⟩
  · exact ⟨by simp [missingInDstRow], by simp [missingInDstRow]⟩
  · exact ⟨by simp [missingInSrcRow], by simp [missingInSrcRow]⟩

theorem asym_db_missing_rows_only_witness :
    (checkSingleDB "d" ⟨.ok ["a"], .error "", fun _ _ => .queryFail⟩
        ⟨.ok [], .error "", fun _ _ => .queryFail⟩ [] 0 false 0 [] =
      ⟨"d",
        asymMsg "d"
            (diffSortedStrings (removeIgnoredTables ["a"] []) (removeIgnoredTables [] [])).1
            (diffSortedStrings (removeIgnoredTables ["a"] []) (removeIgnoredTables [] [])).2
          :: ((diffSortedStrings (removeIgnoredTables ["a"] [])
              (removeIgnoredTables [] [])).1
            ++ (diffSortedStrings (removeIgnoredTables ["a"] [])
                (removeIgnoredTables [] [])).2),
        (diffSortedStrings (removeIgnoredTables ["a"] [])
            (removeIgnoredTables [] [])).1.map (missingInDstRow "d")
          ++ (diffSortedStrings (removeIgnoredTables ["a"] [])
              (removeIgnoredTables [] [])).2.map (missingInSrcRow "d")⟩)
    ∧ ∀ row ∈ (checkSingleDB "d" ⟨.ok ["a"], .error "", fun _ _ => .queryFail⟩
        ⟨.ok [], .error "", fun _ _ => .queryFail⟩ [] 0 false 0 []).rowsForCSV,
        row.status ≠ "一致" ∧ row.status ≠ "不一致" :=
  asym_db_missing_rows_only "d" ["a"] [] [] (.error "") (.error "")
    (fun _ _ => .queryFail) (fun _ _ => .queryFail) 0 false 0 (Or.inl (by decide))

/-- C6 counterexample: on sorted lists with duplicates the merge does not
return the symmetric difference — with `a = [x, x]` and `b = [x]` (both
sorted under ≤) it returns `([x], [])`, but `x` is an element of `a` that is
in `b`, so the claimed description yields `([], [])`. -/
theorem diffSortedStrings_dup_counterexample :
    List.Sorted (fun a b => a ≤ b) ["x", "x"]
    ∧ List.Sorted (fun a b => a ≤ b) ["x"]
    ∧ diffSortedStrings ["x", "x"] ["x"] = (["x"], [])
    ∧ diffSortedStrings ["x", "x"] ["x"]
        ≠ (["x", "x"].filter (fun s => ¬ s ∈ ["x"]),
           ["x"].filter (fun s => ¬ s ∈ ["x", "x"])) := by
  refine ⟨?_, ?_, by decide, by decide⟩
  · simp [List.Sorted, List.pairwise_cons]
  · simp [List.Sorted]

/-- C6 amended: for strictly sorted (sorted and duplicate-free) string lists,
`diffSortedStrings` returns exactly the elements of each list absent from
the other, in input order — the symmetric difference — in one merge pass
(main.go:163-186). -/
theorem diffSortedStrings_symm_diff (a b : List String)
    (ha : List.Pairwise (fun x y => x < y) a)
    (hb : List.Pairwise (fun x y => x < y) b) :
    diffSortedStrings a b
      = (a.filter (fun x => ¬ x ∈ b), b.filter (fun x => ¬ x ∈ a)) :=
  diffSortedStrings_symmDiff_aux (a.length + b.length) a b le_rfl ha hb

theorem diffSortedStrings_symm_diff_witness :
    diffSortedStrings ["a"] ["b"]
      = (["a"].filter (fun x => ¬ x ∈ ["b"]),
         ["b"].filter (fun x => ¬ x ∈ ["a"])) :=
  diffSortedStrings_symm_diff ["a"] ["b"] (by decide) (by decide)

/-- Scenario input: `db1` has `t1` (100 rows) and `t2` (50 rows), identical
on both sides. -/
def db1Src : SideInput :=
  ⟨.ok ["t1", "t2"], .error "", fun t _ => .success (if t = "t1" then 100 else 50)⟩

/-- Scenario input: source of `db2` has `t3` (100 rows) and `t4`. -/
def db2Src : SideInput := ⟨.ok ["t3", "t4"], .error "", fun _ _ => .success 100⟩

/-- Scenario input: destination of `db2` has only `t3`, with 103 rows. -/
def db2Dst : SideInput := ⟨.ok ["t3"], .error "", fun _ _ => .success 103⟩

/-- C3 counterexample: in the end-to-end scenario, `db2` (with `t4` only in
the source) produces no row at all for `t3` — in particular no mismatch row
with difference 3 — because the table-set asymmetry suppresses all counting
for the database; the only row is the sentinel row for `t4`. -/
theorem scenario_t3_counterexample :
    (checkSingleDB "db2" db2Src db2Dst [] 2 false 2 []).rowsForCSV.filter
        (fun r => r.table == "t3") = []
    ∧ (checkSingleDB "db2" db2Src db2Dst [] 2 false 2 []).rowsForCSV =
        [⟨"db2", "t4", "-1", "-1", "N/A", "目的表不存在"⟩] :=
  ⟨by decide, by decide⟩

/-- C3 amended: in the scenario, `db1` is clean with both tables matching;
for `db2` the asymmetry on `t4` yields exactly one missing-in-destination
row for `t4` with sentinel counts `-1` and suppresses the counting of `t3`
(no mismatch row for `t3` is produced); the summary marks `db1` clean and
lists `db2`'s problems. -/
theorem scenario_report :
    checkSingleDB "db1" db1Src db1Src [] 2 false 2 [] =
      ⟨"db1", [], [⟨"db1", "t1", "100", "100", "0", "一致"⟩,
        ⟨"db1", "t2", "50", "50", "0", "一致"⟩]⟩
    ∧ checkSingleDB "db2" db2Src db2Dst [] 2 false 2 [] =
      ⟨"db2", [asymMsg "db2" ["t4"] [], "t4"],
        [⟨"db2", "t4", "-1", "-1", "N/A", "目的表不存在"⟩]⟩
    ∧ summaryLines ["db1", "db2"]
        (mergeResults [checkSingleDB "db1" db1Src db1Src [] 2 false 2 [],
          checkSingleDB "db2" db2Src db2Dst [] 2 false 2 []]).1
      = ["DB:【db1】所有表记录数一致，无异常",
         "DB:【db2】相差较大或目的端不存在的表清单如下："
           ++ toString [asymMsg "db2" ["t4"] [], "t4"]] :=
  ⟨by decide, by decide, by decide⟩

/-- Side input whose every count attempt fails (used for the terminal-status
scenario). -/
def failSrc : SideInput := ⟨.ok ["t"], .error "", fun _ _ => .queryFail⟩

/-- Side input whose count always succeeds with 5 rows. -/
def okDst5 : SideInput := ⟨.ok ["t"], .error "", fun _ _ => .success 5⟩

/-- C4 counterexample: table `t` is selected for comparison (present in both
table lists), but when its count query fails on both sides after all retries
it ends with no terminal status at all in the report — zero CSV rows — only
two failure messages in the error list. -/
theorem failed_table_counterexample :
    "t" ∈ ["t"]
    ∧ (checkSingleDB "d" failSrc failSrc [] 0 false 1 []).rowsForCSV = []
    ∧ (checkSingleDB "d" failSrc failSrc [] 0 false 1 []).errList
        = [countFailMsg "t", countFailMsg "t"] :=
  ⟨by decide, by decide, by decide⟩

/-- C4 amended: a selected table with at least one successful side count ends
in exactly one CSV row; a table whose count failed on exactly one side is
reported with that side's missing-table status (`源表不存在`/`目的表不存在`),
which is distinguishable from the mismatch status `不一致`; a table failing
on both sides produces no CSV row, only error-list records
(main.go:541-572, main.go:709-714). -/
theorem table_terminal_status (db : String) (th : Int) (mr : Nat)
    (tbls : List String) (srcIn dstIn : SideInput) (t : String)
    (hne : tbls ≠ []) (hnd : tbls.Nodup) (ht : t ∈ tbls) :
    ((taskOutcome srcIn.countO mr t).isSome ∨ (taskOutcome dstIn.countO mr t).isSome →
      ((checkSingleDB db srcIn dstIn [] th false mr tbls).rowsForCSV.filter
        (fun r => r.table == t)).length = 1)
    ∧ (taskOutcome srcIn.countO mr t = none → taskOutcome dstIn.countO mr t = none →
      (checkSingleDB db srcIn dstIn [] th false mr tbls).rowsForCSV.filter
        (fun r => r.table == t) = []
      ∧ countFailMsg t ∈ (checkSingleDB db srcIn dstIn [] th false mr tbls).errList)
    ∧ (∀ d, taskOutcome srcIn.countO mr t = none →
        taskOutcome dstIn.countO mr t = some d →
      (checkSingleDB db srcIn dstIn [] th false mr tbls).rowsForCSV.filter
        (fun r => r.table == t) = [⟨db, t, "-1", toString d, "N/A", "源表不存在"⟩]
      ∧ countFailMsg t ∈ (checkSingleDB db srcIn dstIn [] th false mr tbls).errList)
    ∧ (∀ c, taskOutcome srcIn.countO mr t = some c →
        taskOutcome dstIn.countO mr t = none →
      (checkSingleDB db srcIn dstIn [] th false mr tbls).rowsForCSV.filter
        (fun r => r.table == t) = [⟨db, t, toString c, "-1", "N/A", "目的表不存在"⟩]
      ∧ countFailMsg t ∈ (checkSingleDB db srcIn dstIn [] th false mr tbls).errList)
    ∧ ("源表不存在" ≠ ("不一致" : String) ∧ "目的表不存在" ≠ ("不一致" : String)) := by
  have heq := checkSingleDB_specified db srcIn dstIn [] th mr tbls hne
    (by rw [removeIgnored_nil]; exact hne)
  rw [removeIgnored_nil] at heq
  have hrows : (checkSingleDB db srcIn dstIn [] th false mr tbls).rowsForCSV
      = (compareRows db th (keyedMap (taskOutcome srcIn.countO mr) tbls)
          (keyedMap (taskOutcome dstIn.countO mr) tbls)).1 := by
    rw [heq, countTableRows_eq, countTableRows_eq]
  have herr : (checkSingleDB db srcIn dstIn [] th false mr tbls).errList
      = (tbls.filter (fun u => (taskOutcome srcIn.countO mr u).isNone)).map countFailMsg
        ++ ((tbls.filter (fun u => (taskOutcome dstIn.countO mr u).isNone)).map countFailMsg
          ++ (compareRows db th (keyedMap (taskOutcome srcIn.countO mr) tbls)
              (keyedMap (taskOutcome dstIn.countO mr) tbls)).2) := by
    rw [heq, countTableRows_eq, countTableRows_eq]
    simp
  have hfilter := rows_for_table db th tbls (taskOutcome srcIn.countO mr)
    (taskOutcome dstIn.countO mr) t hnd ht
  have hmemsrc : taskOutcome srcIn.countO mr t = none →
      countFailMsg t ∈ (checkSingleDB db srcIn dstIn [] th false mr tbls).errList := by
    intro hS
    rw [herr]
    exact List.mem_append_left _
      (List.mem_map_of_mem _ (List.mem_filter.mpr ⟨ht, by simp [hS]⟩))
  have hmemdst : taskOutcome dstIn.countO mr t = none →
      countFailMsg t ∈ (checkSingleDB db srcIn dstIn [] th false mr tbls).errList := by
    intro hD
    rw [herr]
    exact List.mem_append_right _ (List.mem_append_left _
      (List.mem_map_of_mem _ (List.mem_filter.mpr ⟨ht, by simp [hD]⟩)))
  refine ⟨?_, ?_, ?_, ?_, by decide, by decide⟩
  · intro hsome
    rw [hrows, hfilter]
    cases hS : taskOutcome srcIn.countO mr t with
    | some c => simp
    | none =>
      cases hD : taskOutcome dstIn.countO mr t with
      | some d => simp
      | none => simp [hS, hD] at hsome
  · intro hS hD
    refine ⟨?_, hmemsrc hS⟩
    rw [hrows, hfilter, hS, hD]
  · intro d hS hD
    refine ⟨?_, hmemsrc hS⟩
    rw [hrows, hfilter, hS, hD]
  · intro c hS hD
    refine ⟨?_, hmemdst hD⟩
    rw [hrows, hfilter, hS]
    simp [compareSrcEntry, keyedMap_lookup, ht, hD]

theorem table_terminal_status_witness :
    ((taskOutcome failSrc.countO 0 "t").isSome ∨ (taskOutcome okDst5.countO 0 "t").isSome →
      ((checkSingleDB "d" failSrc okDst5 [] 0 false 0 ["t"]).rowsForCSV.filter
        (fun r => r.table == "t")).length = 1)
    ∧ (taskOutcome failSrc.countO 0 "t" = none → taskOutcome okDst5.countO 0 "t" = none →
      (checkSingleDB "d" failSrc okDst5 [] 0 false 0 ["t"]).rowsForCSV.filter
        (fun r => r.table == "t") = []
      ∧ countFailMsg "t" ∈ (checkSingleDB "d" failSrc okDst5 [] 0 false 0 ["t"]).errList)
    ∧ (∀ d, taskOutcome failSrc.countO 0 "t" = none →
        taskOutcome okDst5.countO 0 "t" = some d →
      (checkSingleDB "d" failSrc okDst5 [] 0 false 0 ["t"]).rowsForCSV.filter
        (fun r => r.table == "t") = [⟨"d", "t", "-1", toString d, "N/A", "源表不存在"⟩]
      ∧ countFailMsg "t" ∈ (checkSingleDB "d" failSrc okDst5 [] 0 false 0 ["t"]).errList)
    ∧ (∀ c, taskOutcome failSrc.countO 0 "t" = some c →
        taskOutcome okDst5.countO 0 "t" = none →
      (checkSingleDB "d" failSrc okDst5 [] 0 false 0 ["t"]).rowsForCSV.filter
        (fun r => r.table == "t") = [⟨"d", "t", toString c, "-1", "N/A", "目的表不存在"⟩]
      ∧ countFailMsg "t" ∈ (checkSingleDB "d" failSrc okDst5 [] 0 false 0 ["t"]).errList)
    ∧ ("源表不存在" ≠ ("不一致" : String) ∧ "目的表不存在" ≠ ("不一致" : String)) :=
  table_terminal_status "d" 0 0 ["t"] failSrc okDst5 "t"
    (by decide) (by decide) (by decide)

/-- Per-database result used in the merge-order scenario (database `a`). -/
def raRes : CheckResult := ⟨"a", [], [⟨"a", "t", "1", "1", "0", "一致"⟩]⟩

/-- Per-database result used in the merge-order scenario (database `b`). -/
def rbRes : CheckResult := ⟨"b", ["u"], [⟨"b", "u", "2", "2", "0", "不一致"⟩]⟩

/-- C7 counterexample: feeding the same two per-database results in the two
possible completion orders yields different accumulated CSV row lists (the
rows appear in completion order), so the merged report is not literally
identical across orders. -/
theorem merge_order_counterexample :
    ([raRes, rbRes] : List CheckResult).Perm [rbRes, raRes]
    ∧ (mergeResults [raRes, rbRes]).2 ≠ (mergeResults [rbRes, raRes]).2 :=
  ⟨List.Perm.swap _ _ _, by decide⟩

/-- C7 amended: over any permutation of the fed results (database names
distinct, as they are in `diff` where each database is checked once), the
merge yields the same per-database error map, the same multiset of CSV rows
(a permutation — set-equality as in the spec's test), and the same summary
lines; only the order of the accumulated CSV rows varies with completion
order (main.go:1145-1156, 1198-1211). -/
theorem merge_order_invariant (l1 l2 : List CheckResult) (h : l1.Perm l2)
    (hnd : (l1.map (fun r => r.dbName)).Nodup) (dbs : List String) :
    (∀ dbn, (mergeResults l1).1 dbn = (mergeResults l2).1 dbn)
    ∧ (mergeResults l1).2.Perm (mergeResults l2).2
    ∧ summaryLines dbs (mergeResults l1).1 = summaryLines dbs (mergeResults l2).1 := by
  have hfst : ∀ dbn, (mergeResults l1).1 dbn = (mergeResults l2).1 dbn := by
    intro dbn
    unfold mergeResults
    rw [mergeResults_fst_aux, mergeResults_fst_aux,
      filter_dbName_eq_of_perm l1 l2 h hnd dbn]
  refine ⟨hfst, ?_, ?_⟩
  · unfold mergeResults
    rw [mergeResults_snd_aux, mergeResults_snd_aux]
    simpa using List.Perm.flatten (List.Perm.map _ h)
  · unfold summaryLines
    exact List.map_congr_left (fun dbn _ => by unfold summaryLine; rw [hfst dbn])

theorem merge_order_invariant_witness :
    (mergeResults [raRes, rbRes]).1 "a" = (mergeResults [rbRes, raRes]).1 "a"
    ∧ (mergeResults [raRes, rbRes]).2.Perm (mergeResults [rbRes, raRes]).2
    ∧ summaryLines ["a", "b"] (mergeResults [raRes, rbRes]).1
        = summaryLines ["a", "b"] (mergeResults [rbRes, raRes]).1 :=
  have h := merge_order_invariant [raRes, rbRes] [rbRes, raRes]
    (List.Perm.swap _ _ _) (by decide) ["a", "b"]
  ⟨h.1 "a", h.2.1, h.2.2⟩

/-- C8 counterexample: a database where only the source side's filtered
table list is empty is not skipped with the nothing-to-compare result —
the asymmetry branch fires instead, producing missing-table rows. -/
theorem empty_side_counterexample :
    checkSingleDB "d" ⟨.ok [], .error "", fun _ _ => .queryFail⟩
        ⟨.ok ["t"], .error "", fun _ _ => .queryFail⟩ [] 0 true 0 [] =
      ⟨"d", [asymMsg "d" [] ["t"], "t"], [⟨"d", "t", "-1", "-1", "N/A", "源表不存在"⟩]⟩
    ∧ ¬ emptyMsg "d" ∈ (checkSingleDB "d" ⟨.ok [], .error "", fun _ _ => .queryFail⟩
        ⟨.ok ["t"], .error "", fun _ _ => .queryFail⟩ [] 0 true 0 []).errList
    ∧ (checkSingleDB "d" ⟨.ok [], .error "", fun _ _ => .queryFail⟩
        ⟨.ok ["t"], .error "", fun _ _ => .queryFail⟩ [] 0 true 0 []).rowsForCSV ≠ [] :=
  ⟨by decide, by decide, by decide⟩

/-- C8 amended: only when both sides' ignore-filtered table lists are empty
is the database skipped with the non-fatal informational nothing-to-compare
result, with no rows and no dependence on any count or statistics oracle
(main.go:456-461); when exactly one side is empty the asymmetry branch
produces missing-table rows instead. -/
theorem both_empty_skip (db : String) (ls ld ig : List String)
    (sq1 sq2 : Except String (String → Nat)) (co1 co2 : String → Nat → AttemptResult)
    (th : Int) (us : Bool) (mr : Nat)
    (h1 : removeIgnoredTables ls ig = []) (h2 : removeIgnoredTables ld ig = []) :
    checkSingleDB db ⟨.ok ls, sq1, co1⟩ ⟨.ok ld, sq2, co2⟩ ig th us mr [] =
      ⟨db, [emptyMsg db], []⟩ :=
  checkSingleDB_both_empty db ls ld ig sq1 sq2 co1 co2 th us mr h1 h2

theorem both_empty_skip_witness :
    checkSingleDB "d" ⟨.ok ["x"], .error "", fun _ _ => .queryFail⟩
        ⟨.ok ["x"], .error "", fun _ _ => .queryFail⟩ ["x"] 0 true 0 [] =
      ⟨"d", [emptyMsg "d"], []⟩ :=
  both_empty_skip "d" ["x"] ["x"] ["x"] (.error "") (.error "")
    (fun _ _ => .queryFail) (fun _ _ => .queryFail) 0 true 0 (by decide) (by decide)

/-- C9 counterexample: with `concurrency = 10` and `tableConcurrency = 30`
the default open-connection limit is clamped to 500, not the claimed
`10 * 2 * (30 + 10) = 800`. -/
theorem pool_sizing_counterexample :
    computeOpenConns 10 30 = 500
    ∧ 10 * 2 * (30 + 10) = 800
    ∧ computeOpenConns 10 30 ≠ 10 * 2 * (30 + 10) :=
  ⟨by decide, by decide, by decide⟩

/-- C9 amended: when not explicitly configured, the open-connection limit is
`dbConcurrency * 2 * (tableConcurrency + 10)` clamped into `[1, 500]`, and
the idle-connection limit is 80% of the open limit rounded down, at least 1
(main.go:835-855). -/
theorem pool_sizing_clamped (c t n : Nat) :
    computeOpenConns c t = min 500 (max 1 (c * 2 * (t + 10)))
    ∧ computeIdleConns n = max 1 (n * 4 / 5) := by
  unfold computeOpenConns computeIdleConns
  constructor
  · dsimp only
    split_ifs <;> omega
  · dsimp only
    split_ifs <;> omega

/-- C10: with a non-empty explicit table list, `checkSingleDB` uses that list
(ignore-filtered) as both table sets: the result never depends on the
table-list query oracles (no table-existence check happens), the produced
rows are exactly those of the count-and-compare phase (the reconciliation
branch is never taken, so no reconciliation row with both sentinel counts exists),
and a specified table absent on the destination side surfaces as a failed
count for that side — a count-phase missing row carrying the real source
count plus a count-failure error — not as a reconciliation result
(main.go:420-454). -/
theorem specified_tables_no_reconciliation (db : String) (ig : List String)
    (th : Int) (mr : Nat) (us : Bool) (tbls : List String)
    (hpos : tbls ≠ []) (hfil : removeIgnoredTables tbls ig ≠ [])
    (q1 q2 q1' q2' : Except String (List String))
    (sq1 sq2 : Except String (String → Nat))
    (co1 co2 : String → Nat → AttemptResult) :
    (checkSingleDB db ⟨q1, sq1, co1⟩ ⟨q2, sq2, co2⟩ ig th us mr tbls
      = checkSingleDB db ⟨q1', sq1, co1⟩ ⟨q2', sq2, co2⟩ ig th us mr tbls)
    ∧ (checkSingleDB db ⟨q1, sq1, co1⟩ ⟨q2, sq2, co2⟩ ig th false mr tbls).rowsForCSV
        = (compareRows db th
            (countTableRowsConcurrent (removeIgnoredTables tbls ig) co1 mr).1
            (countTableRowsConcurrent (removeIgnoredTables tbls ig) co2 mr).1).1
    ∧ (∀ t c, t ∈ removeIgnoredTables tbls ig →
        taskOutcome co1 mr t = some c → taskOutcome co2 mr t = none →
        (⟨db, t, toString c, "-1", "N/A", "目的表不存在"⟩ : CSVRow)
          ∈ (checkSingleDB db ⟨q1, sq1, co1⟩ ⟨q2, sq2, co2⟩
              ig th false mr tbls).rowsForCSV
        ∧ countFailMsg t
          ∈ (checkSingleDB db ⟨q1, sq1, co1⟩ ⟨q2, sq2, co2⟩
              ig th false mr tbls).errList) := by
  have hp : tbls.length > 0 := List.length_pos.mpr hpos
  have heq := checkSingleDB_specified db ⟨q1, sq1, co1⟩ ⟨q2, sq2, co2⟩ ig th mr tbls
    hpos hfil
  refine ⟨?_, ?_, ?_⟩
  · unfold checkSingleDB
    rw [if_pos hp, if_pos hp]
    rfl
  · rw [heq]
  · intro t c htl hS hD
    have hrow : compareSrcEntry db th
        (keyedMap (taskOutcome co2 mr) (removeIgnoredTables tbls ig)) (t, c)
        = ⟨db, t, toString c, "-1", "N/A", "目的表不存在"⟩ := by
      simp [compareSrcEntry, keyedMap_lookup, htl, hD]
    have hmem : (t, c) ∈ keyedMap (taskOutcome co1 mr) (removeIgnoredTables tbls ig) := by
      rw [keyedMap]
      exact List.mem_filterMap.mpr ⟨t, htl, by simp [hS]⟩
    constructor
    · rw [heq]
      show _ ∈ (compareRows db th _ _).1
      rw [countTableRows_eq, countTableRows_eq]
      dsimp only
      rw [← hrow]
      exact List.mem_append_left _ (List.mem_map_of_mem _ hmem)
    · rw [heq]
      show _ ∈ (countTableRowsConcurrent (removeIgnoredTables tbls ig) co1 mr).2
        ++ (countTableRowsConcurrent (removeIgnoredTables tbls ig) co2 mr).2
        ++ (compareRows db th _ _).2
      rw [countTableRows_eq, countTableRows_eq]
      dsimp only
      exact List.mem_append_left _ (List.mem_append_right _
        (List.mem_map_of_mem _ (List.mem_filter.mpr ⟨htl, by simp [hD]⟩)))

theorem specified_tables_no_reconciliation_witness :
    (checkSingleDB "d" ⟨.ok ["zz"], .error "", fun _ _ => .success 7⟩
        ⟨.ok [], .error "", fun _ _ => .queryFail⟩ [] 0 true 0 ["t"]
      = checkSingleDB "d" ⟨.error "boom", .error "", fun _ _ => .success 7⟩
        ⟨.error "boom", .error "", fun _ _ => .queryFail⟩ [] 0 true 0 ["t"])
    ∧ (checkSingleDB "d" ⟨.ok ["zz"], .error "", fun _ _ => .success 7⟩
        ⟨.ok [], .error "", fun _ _ => .queryFail⟩ [] 0 false 0 ["t"]).rowsForCSV
        = (compareRows "d" 0
            (countTableRowsConcurrent (removeIgnoredTables ["t"] [])
              (fun _ _ => .success 7) 0).1
            (countTableRowsConcurrent (removeIgnoredTables ["t"] [])
              (fun _ _ => .queryFail) 0).1).1
    ∧ (∀ t c, t ∈ removeIgnoredTables ["t"] [] →
        taskOutcome (fun _ _ => .success 7) 0 t = some c →
        taskOutcome (fun _ _ => .queryFail) 0 t = none →
        (⟨"d", t, toString c, "-1", "N/A", "目的表不存在"⟩ : CSVRow)
          ∈ (checkSingleDB "d" ⟨.ok ["zz"], .error "", fun _ _ => .success 7⟩
              ⟨.ok [], .error "", fun _ _ => .queryFail⟩ [] 0 false 0 ["t"]).rowsForCSV
        ∧ countFailMsg t
          ∈ (checkSingleDB "d" ⟨.ok ["zz"], .error "", fun _ _ => .success 7⟩
              ⟨.ok [], .error "", fun _ _ => .queryFail⟩ [] 0 false 0 ["t"]).errList) :=
  specified_tables_no_reconciliation "d" [] 0 0 true ["t"] (by decide) (by decide)
    (.ok ["zz"]) (.ok []) (.error "boom") (.error "boom") (.error "") (.error "")
    (fun _ _ => .success 7) (fun _ _ => .queryFail)
